import Mathlib

/-!
Verification development for the comic layout planner
(`src/dev/layout_planner.py`).

The Python module is shallowly embedded below.  Scene texts are modelled
as `List Char`; mood / format labels as `String`; the page-relative
geometry as exact rationals `ℚ`.  Python's `int(base * factor)` on the
non-negative products appearing here is truncation toward zero, i.e.
the floor; the mood factors 0.8 / 1.2 / 1.0 / 1.4 are carried as exact
tenths (`n/10`), which agrees with the double-precision source on every
value observable through the `clamp(·, 3, format_limit ≤ 9)` that
follows.  The single pseudorandom draw (`random.random() > 0.7`, made
only for the climax panel) is threaded in as an explicit `Bool`
parameter `bleedDraw`.
-/

namespace ComicLayout

/-- Python `str.lower` restricted to the alphabets occurring in the
module's constant tables: ASCII `A`–`Z` and Cyrillic `А`–`Я`, `Ё`. -/
def pyLowerChar (c : Char) : Char :=
  if 'A' ≤ c ∧ c ≤ 'Z' then Char.ofNat (c.toNat + 32)
  else if 'А' ≤ c ∧ c ≤ 'Я' then Char.ofNat (c.toNat + 32)
  else if c = 'Ё' then 'ё'
  else c

/-- Python `needle in hay` on strings: `needle` occurs as a contiguous
substring of `hay`. -/
def containsSub (hay needle : List Char) : Bool :=
  match hay with
  | [] => needle.isEmpty
  | c :: t => needle.isPrefixOf (c :: t) || containsSub t needle

/-- Enumeration `ReadingDirection` of the source. -/
inductive ReadingDirection where
  | western
  | manga
deriving DecidableEq, Repr

/-- Enumeration `AspectRatio` of the source (the numeric pairs are kept
implicitly by the constructor; only the identity of the member matters
to the layout algorithms). -/
inductive AspectRatio where
  | widescreen
  | cinematic
  | standard
  | square
  | portrait
  | vertical
  | extremeVertical
deriving DecidableEq, Repr

/-- Dataclass `Panel` of the source. -/
structure Panel where
  id : ℕ
  x : ℚ
  y : ℚ
  width : ℚ
  height : ℚ
  aspect_ratio : AspectRatio
  content : List Char
  is_bleed : Bool
  is_climax : Bool
deriving DecidableEq, Repr

/-- Dataclass `PageLayout` of the source. -/
structure PageLayout where
  panels : List Panel
  reading_direction : ReadingDirection
  mood : String
  target_format : String
  total_panels : ℕ
deriving DecidableEq, Repr

/-- One rectangle `(x, y, width, height)` of a layout template. -/
structure Rect where
  x : ℚ
  y : ℚ
  w : ℚ
  h : ℚ
deriving DecidableEq, Repr

/-- Lookup `mood_factors.get(mood, 1.0)` of `_calculate_panel_count`, carried
as tenths (8 ↦ 0.8, 12 ↦ 1.2, 10 ↦ 1.0, 14 ↦ 1.4). -/
def moodFactorTenths (mood : String) : ℕ :=
  if mood = "эпичный боевик" then 8
  else if mood = "лирическая драма" then 12
  else if mood = "напряженный триллер" then 10
  else if mood = "комедийный скетч" then 14
  else 10

/-- Lookup `format_limits.get(target_format, 8)` of `_calculate_panel_count`. -/
def formatLimit (fmt : String) : ℕ :=
  if fmt = "веб-комикс" then 9
  else if fmt = "печатная манга" then 7
  else if fmt = "европейский альбом" then 6
  else if fmt = "сториз для соцсетей" then 4
  else 8

/-- Embedding of `LayoutEngine._calculate_panel_count`:
`max(3, min(format_limit, int(base_count * mood_factor)))`, with the
truncated product computed exactly as `base_count * tenths / 10` in ℕ. -/
def calculatePanelCount (nScenes : ℕ) (mood fmt : String) : ℕ :=
  max 3 (min (formatLimit fmt) (nScenes * moodFactorTenths mood / 10))

/-- The `climax_indicators` table of `_find_climax`. -/
def climaxIndicators : List (List Char × ℕ) :=
  [("взрыв".data, 10), ("кульминация".data, 9), ("решающий".data, 8),
   ("ключевой".data, 7), ("шокирующий".data, 8), ("неожиданный".data, 7),
   ("битва".data, 6)]

/-- Score of one scene in `_find_climax`: keyword weights for every
indicator occurring in the lowered scene text, plus 3 for every key
element occurring in it. -/
def sceneScore (keyElements : List (List Char)) (scene : List Char) : ℕ :=
  let sl := scene.map pyLowerChar
  climaxIndicators.foldl
      (fun acc kw => if containsSub sl kw.1 then acc + kw.2 else acc) 0
    + keyElements.foldl
      (fun acc e => if containsSub sl (e.map pyLowerChar) then acc + 3 else acc) 0

/-- Embedding of `LayoutEngine._find_climax`:
`scores.index(max(scores)) if scores else len(scenes) // 2`. -/
def findClimax (scenes keyElements : List (List Char)) : ℕ :=
  let scores := scenes.map (sceneScore keyElements)
  if scores.isEmpty then scenes.length / 2
  else scores.indexOf (scores.foldr max 0)

/-- The single 4-panel entry of `LAYOUT_TEMPLATES`. -/
def template4 : List Rect :=
  [⟨0, 0, 1/2, 1/2⟩, ⟨1/2, 0, 1/2, 1/2⟩,
   ⟨0, 1/2, 1/2, 1/2⟩, ⟨1/2, 1/2, 1/2, 1/2⟩]

/-- The single 5-panel entry of `LAYOUT_TEMPLATES`. -/
def template5 : List Rect :=
  [⟨0, 0, 6/10, 4/10⟩, ⟨6/10, 0, 4/10, 4/10⟩,
   ⟨0, 4/10, 1, 3/10⟩,
   ⟨0, 7/10, 1/2, 3/10⟩, ⟨1/2, 7/10, 1/2, 3/10⟩]

/-- The single 6-panel entry of `LAYOUT_TEMPLATES`. -/
def template6 : List Rect :=
  [⟨0, 0, 6/10, 3/10⟩, ⟨6/10, 0, 4/10, 3/10⟩,
   ⟨0, 3/10, 45/100, 25/100⟩, ⟨45/100, 3/10, 55/100, 25/100⟩,
   ⟨0, 55/100, 3/10, 45/100⟩, ⟨3/10, 55/100, 7/10, 45/100⟩]

/-- The `LAYOUT_TEMPLATES` dict: panel count ↦ list of template
variants (each key holds exactly one variant in the source). -/
def layoutTemplates (n : ℕ) : Option (List (List Rect)) :=
  if n = 4 then some [template4]
  else if n = 5 then some [template5]
  else if n = 6 then some [template6]
  else none

/-- Computation `math.ceil(math.sqrt(n))` for the natural numbers reachable here:
the least `c` with `n ≤ c * c` (the double sqrt of a small integer is
exact on perfect squares, so the two ceilings agree). -/
def ceilSqrt (n : ℕ) : ℕ :=
  (List.range (n + 1)).findIdx fun c => n ≤ c * c

/-- Embedding of `LayoutEngine._generate_grid_layout`. -/
def gridLayout (panelCount : ℕ) : List Rect :=
  let cols := ceilSqrt panelCount
  let rows := (panelCount + cols - 1) / cols
  let cw : ℚ := 1 / cols
  let ch : ℚ := 1 / rows
  (List.range panelCount).map fun i =>
    ⟨(i % cols : ℕ) * cw, (i / cols : ℕ) * ch, cw, ch⟩

/-- The `MOOD_STYLES` lookup with its `"balanced"` default, as used by
`_select_layout_template`. -/
def moodStyle (mood : String) : String :=
  if mood = "эпичный боевик" then "dynamic"
  else if mood = "лирическая драма" then "balanced"
  else if mood = "напряженный триллер" then "tight"
  else if mood = "комедийный скетч" then "varied"
  else "balanced"

/-- Embedding of `LayoutEngine._select_layout_template`. -/
def selectLayoutTemplate (panelCount : ℕ) (mood : String) : List Rect :=
  let templates := (layoutTemplates panelCount).getD [gridLayout panelCount]
  let style := moodStyle mood
  if style = "dynamic" ∧ templates.length > 1 then templates.getD 1 []
  else templates.getD 0 []

/-- The in-place `climax_panel[2] *= 1.3; climax_panel[3] *= 1.3` of
`_adjust_for_climax`, as a pure update of the rectangle at `i`. -/
def scaleClimax : List Rect → ℕ → List Rect
  | [], _ => []
  | r :: t, 0 => ⟨r.x, r.y, r.w * (13/10), r.h * (13/10)⟩ :: t
  | r :: t, n + 1 => r :: scaleClimax t n

/-- The per-rectangle body of `LayoutEngine._normalize_layout`. -/
def normalizeRect (r : Rect) : Rect :=
  let x := max 0 (min 1 r.x)
  let y := max 0 (min 1 r.y)
  let w := max (1/10) (min 1 r.w)
  let h := max (1/10) (min 1 r.h)
  let w' := if 1 < x + w then 1 - x else w
  let h' := if 1 < y + h then 1 - y else h
  ⟨x, y, w', h'⟩

/-- Embedding of `LayoutEngine._normalize_layout`. -/
def normalizeLayout (l : List Rect) : List Rect :=
  l.map normalizeRect

/-- Embedding of `LayoutEngine._adjust_for_climax`. -/
def adjustForClimax (template : List Rect) (climaxIndex : ℕ) : List Rect :=
  if template.length ≤ climaxIndex then template
  else normalizeLayout (scaleClimax template climaxIndex)

/-- The `CONTENT_RATIOS` table (insertion order preserved). -/
def contentRatios : List (List Char × AspectRatio) :=
  [("установочный".data, .widescreen), ("пейзаж".data, .widescreen),
   ("город".data, .widescreen),
   ("бежит".data, .cinematic), ("движение".data, .cinematic),
   ("погоня".data, .cinematic),
   ("крупный план".data, .portrait), ("лицо".data, .portrait),
   ("эмоция".data, .portrait),
   ("высота".data, .extremeVertical), ("падение".data, .extremeVertical)]

/-- Embedding of `LayoutEngine._determine_aspect_ratio`. -/
def determineAspectRatio (content : List Char) : AspectRatio :=
  let cl := content.map pyLowerChar
  match contentRatios.find? (fun kr => containsSub cl kr.1) with
  | some kr => kr.2
  | none =>
    if ["эмоция".data, "лицо".data, "реакция".data].any (containsSub cl) then
      .portrait
    else if ["действие".data, "движение".data].any (containsSub cl) then
      .cinematic
    else .standard

/-- The loop body of `_create_panels` for absolute panel index `i`:
`is_bleed = is_climax and random.random() > 0.7`, the draw being the
explicit `bleedDraw`. -/
def mkPanel (i : ℕ) (r : Rect) (scene : List Char) (climaxIndex : ℕ)
    (bleedDraw : Bool) : Panel :=
  { id := i + 1
    x := r.x
    y := r.y
    width := r.w
    height := r.h
    aspect_ratio := determineAspectRatio scene
    content := scene
    is_bleed := decide (i = climaxIndex) && bleedDraw
    is_climax := decide (i = climaxIndex) }

/-- The enumeration loop of `_create_panels`, which breaks as soon as
the scene list is exhausted; `i` is the running absolute index. -/
def createPanelsAux (bleedDraw : Bool) (climaxIndex : ℕ) :
    List Rect → List (List Char) → ℕ → List Panel
  | [], _, _ => []
  | _ :: _, [], _ => []
  | r :: rt, s :: st, i =>
      mkPanel i r s climaxIndex bleedDraw :: createPanelsAux bleedDraw climaxIndex rt st (i + 1)

/-- Embedding of `LayoutEngine._create_panels`. -/
def createPanels (template : List Rect) (scenes : List (List Char))
    (climaxIndex : ℕ) (bleedDraw : Bool) : List Panel :=
  createPanelsAux bleedDraw climaxIndex template scenes 0

/-- Embedding of `LayoutEngine.generate_layout`.  The `ValueError` on an empty scene
list is the `Except.error` branch. -/
def generateLayout (scenes keyElements : List (List Char))
    (mood targetFormat : String) (dir : ReadingDirection)
    (bleedDraw : Bool) : Except String PageLayout :=
  if scenes.isEmpty then .error "At least one scene required"
  else
    let panelCount := calculatePanelCount scenes.length mood targetFormat
    let climaxIndex := findClimax scenes keyElements
    let template := selectLayoutTemplate panelCount mood
    let adjusted := adjustForClimax template climaxIndex
    let panels := createPanels adjusted scenes climaxIndex bleedDraw
    .ok { panels := panels
          reading_direction := dir
          mood := mood
          target_format := targetFormat
          total_panels := panelCount }

/-- The WESTERN comparison `key = (p.y, p.x)`, lexicographic. -/
def westernLE (p q : Panel) : Prop :=
  p.y < q.y ∨ (p.y = q.y ∧ p.x ≤ q.x)

/-- The MANGA comparison `key = (-p.y, -p.x)`, lexicographic. -/
def mangaLE (p q : Panel) : Prop :=
  q.y < p.y ∨ (p.y = q.y ∧ q.x ≤ p.x)

instance : DecidableRel westernLE := fun p q => by
  unfold westernLE; infer_instance

instance : DecidableRel mangaLE := fun p q => by
  unfold mangaLE; infer_instance

/-- Embedding of `LayoutFormatter._sort_panels_by_reading_order`.  Python `sorted`
is a stable sort by the direction's key; a stable insertion sort by the
same key computes the same list. -/
def sortPanelsByReadingOrder (panels : List Panel)
    (dir : ReadingDirection) : List Panel :=
  match dir with
  | .manga => panels.insertionSort mangaLE
  | .western => panels.insertionSort westernLE

/-- The monkey-patched `PageLayout._calculate_flow_pattern`. -/
def calculateFlowPattern (L : PageLayout) : String :=
  if L.reading_direction = .manga then "vertical_right_left"
  else if L.panels.length ≤ 4 then "z_pattern"
  else if L.mood = "эпичный боевик" ∨ L.mood = "напряженный триллер" then
    "diagonal_dynamic"
  else "modified_z"

/-- The monkey-patched `PageLayout._analyze_composition`.  Its three
implicit failure points — `sum/len` of an empty list, `max` of an empty
list, and `max_area / avg_area` with a zero mean — are modelled as
`none`. -/
def analyzeComposition (panels : List Panel) : Option String :=
  match panels.map (fun p => p.width * p.height) with
  | [] => none
  | a :: rest =>
      let areas := a :: rest
      let avg := areas.sum / (areas.length : ℚ)
      let mx := rest.foldl max a
      if avg = 0 then none
      else some (if 2 < mx / avg then "pyramidal_focus"
                 else if panels.length ≤ 5 then "balanced_grid"
                 else "rhythmic_mosaic")

/-! ### Spec-side definitions for the refinement claims -/

/-- Modelled from the spec's wording for the panel-count step: the
documented mood-multiplier table as an exact rational. -/
def specMoodMultiplier (mood : String) : ℚ :=
  if mood = "эпичный боевик" then 8/10
  else if mood = "лирическая драма" then 12/10
  else if mood = "напряженный триллер" then 1
  else if mood = "комедийный скетч" then 14/10
  else 1

/-- Modelled from the spec's wording: the documented format-limit
table. -/
def specFormatLimit (fmt : String) : ℕ :=
  if fmt = "веб-комикс" then 9
  else if fmt = "печатная манга" then 7
  else if fmt = "европейский альбом" then 6
  else if fmt = "сториз для соцсетей" then 4
  else 8

/-- The spec's stated formula `clamp(round(base × mood_multiplier), 3,
format_limit)`, with `round` the usual round-half-up on ℚ. -/
def specPanelCountRound (n : ℕ) (mood fmt : String) : ℤ :=
  max 3 (min (specFormatLimit fmt : ℤ) (round ((n : ℚ) * specMoodMultiplier mood)))

/-- The spec formula amended to what the code computes: `int(...)`
truncates the non-negative product toward zero, i.e. takes its floor. -/
def specPanelCountFloor (n : ℕ) (mood fmt : String) : ℕ :=
  max 3 (min (specFormatLimit fmt) ⌊(n : ℚ) * specMoodMultiplier mood⌋₊)

/-! ### Derived definitions used by the proofs -/

/-- The template the engine ends up with for a given panel count: each
`LAYOUT_TEMPLATES` key holds a single variant, so the "dynamic" branch
of `_select_layout_template` is dead and the mood is irrelevant. -/
def baseTemplate (panelCount : ℕ) : List Rect :=
  if panelCount = 4 then template4
  else if panelCount = 5 then template5
  else if panelCount = 6 then template6
  else gridLayout panelCount

/-- The page-boundary invariant on one rectangle. -/
def RectOK (r : Rect) : Prop :=
  0 ≤ r.x ∧ r.x ≤ 1 ∧ 0 ≤ r.y ∧ r.y ≤ 1 ∧
  r.x + r.w ≤ 1 ∧ r.y + r.h ≤ 1 ∧ 1/10 ≤ r.w ∧ 1/10 ≤ r.h

instance : DecidablePred RectOK := fun r => by
  unfold RectOK; infer_instance

/-- Two panels whose `(y, x)` sort keys differ. -/
def distinctPos (p q : Panel) : Prop :=
  ¬(p.y = q.y ∧ p.x = q.x)

instance : DecidableRel distinctPos := fun p q => by
  unfold distinctPos; infer_instance

instance : IsTotal Panel westernLE :=
  ⟨fun a b => by
    unfold westernLE
    rcases lt_trichotomy a.y b.y with h | h | h
    · exact Or.inl (Or.inl h)
    · rcases le_total a.x b.x with hx | hx
      · exact Or.inl (Or.inr ⟨h, hx⟩)
      · exact Or.inr (Or.inr ⟨h.symm, hx⟩)
    · exact Or.inr (Or.inl h)⟩

instance : IsTrans Panel westernLE :=
  ⟨fun a b c hab hbc => by
    unfold westernLE at *
    rcases hab with h | ⟨he, hx⟩ <;> rcases hbc with h' | ⟨he', hx'⟩
    · exact Or.inl (h.trans h')
    · exact Or.inl (he' ▸ h)
    · exact Or.inl (he ▸ h')
    · exact Or.inr ⟨he.trans he', hx.trans hx'⟩⟩

instance : IsTotal Panel mangaLE :=
  ⟨fun a b => by
    unfold mangaLE
    rcases lt_trichotomy a.y b.y with h | h | h
    · exact Or.inr (Or.inl h)
    · rcases le_total a.x b.x with hx | hx
      · exact Or.inr (Or.inr ⟨h.symm, hx⟩)
      · exact Or.inl (Or.inr ⟨h, hx⟩)
    · exact Or.inl (Or.inl h)⟩

instance : IsTrans Panel mangaLE :=
  ⟨fun a b c hab hbc => by
    unfold mangaLE at *
    rcases hab with h | ⟨he, hx⟩ <;> rcases hbc with h' | ⟨he', hx'⟩
    · exact Or.inl (h'.trans h)
    · exact Or.inl (he' ▸ h)
    · exact Or.inl (he ▸ h')
    · exact Or.inr ⟨he.trans he', hx'.trans hx⟩⟩

/-- The single panel of the layout for one scene `"a"` under unknown
mood `"m"` and unknown format `"f"` (used as a concrete witness). -/
def demoPanel : Panel :=
  { id := 1, x := 0, y := 0, width := 13/20, height := 13/20,
    aspect_ratio := .standard, content := "a".data,
    is_bleed := false, is_climax := true }

/-- The layout produced for that single scene. -/
def demoLayout : PageLayout :=
  { panels := [demoPanel], reading_direction := .western,
    mood := "m", target_format := "f", total_panels := 3 }

/-- Second panel of the two-scene Scenario B layout. -/
def demoPanelB : Panel :=
  { id := 2, x := 1/2, y := 0, width := 1/2, height := 1/2,
    aspect_ratio := .standard, content := "b".data,
    is_bleed := false, is_climax := false }

/-- The layout produced for two scenes under unrecognized labels
(Scenario B: requested count 3, only 2 panels constructed). -/
def demoLayoutB : PageLayout :=
  { panels := [demoPanel, demoPanelB], reading_direction := .western,
    mood := "нейтрально", target_format := "зин", total_panels := 3 }

/-- Two panels at the same position with different ids (reachable only
as a hand-built list; used to refute the unrestricted reverse law). -/
def dupPanelA : Panel :=
  { id := 1, x := 0, y := 0, width := 1, height := 1,
    aspect_ratio := .standard, content := "a".data,
    is_bleed := false, is_climax := false }

/-- Companion of `dupPanelA` with the same rectangle. -/
def dupPanelB : Panel :=
  { id := 2, x := 0, y := 0, width := 1, height := 1,
    aspect_ratio := .standard, content := "b".data,
    is_bleed := false, is_climax := false }

/-- Scenario A input: six scenes (texts immaterial for the count). -/
def sixScenes : List (List Char) :=
  ["a".data, "b".data, "c".data, "d".data, "e".data, "f".data]

/-- Ten scenes whose maximum climax score sits on the last scene. -/
def tenScenes : List (List Char) :=
  List.replicate 9 "a".data ++ ["взрыв".data]

attribute [local semireducible] Rat.mul Rat.add Rat.inv Rat.sub

/-! ### Helper lemmas: lengths and template selection -/

theorem scaleClimax_length (l : List Rect) (i : ℕ) :
    (scaleClimax l i).length = l.length := by
  induction l generalizing i with
  | nil => rfl
  | cons r t ih =>
    cases i with
    | zero => rfl
    | succ n => simpa [scaleClimax] using ih n

theorem normalizeLayout_length (l : List Rect) :
    (normalizeLayout l).length = l.length := by
  simp [normalizeLayout]

theorem adjustForClimax_length (T : List Rect) (i : ℕ) :
    (adjustForClimax T i).length = T.length := by
  unfold adjustForClimax
  split
  · rfl
  · rw [normalizeLayout_length, scaleClimax_length]

theorem selectLayoutTemplate_eq (panelCount : ℕ) (mood : String) :
    selectLayoutTemplate panelCount mood = baseTemplate panelCount := by
  unfold selectLayoutTemplate baseTemplate layoutTemplates
  split_ifs with h4 h5 h6 <;>
    simp [Option.getD, List.getD]

theorem gridLayout_length (n : ℕ) : (gridLayout n).length = n := by
  simp [gridLayout]

theorem baseTemplate_length (n : ℕ) : (baseTemplate n).length = n := by
  unfold baseTemplate
  split_ifs with h4 h5 h6 <;>
    first
      | (subst h4; rfl)
      | (subst h5; rfl)
      | (subst h6; rfl)
      | exact gridLayout_length n

/-! ### Helper lemmas: panel-count bounds -/

theorem formatLimit_ge (fmt : String) : 3 ≤ formatLimit fmt := by
  unfold formatLimit
  split_ifs <;> norm_num

theorem formatLimit_le (fmt : String) : formatLimit fmt ≤ 9 := by
  unfold formatLimit
  split_ifs <;> norm_num

theorem calculatePanelCount_ge (n : ℕ) (mood fmt : String) :
    3 ≤ calculatePanelCount n mood fmt :=
  le_max_left 3 _

theorem calculatePanelCount_le (n : ℕ) (mood fmt : String) :
    calculatePanelCount n mood fmt ≤ formatLimit fmt := by
  have h := formatLimit_ge fmt
  unfold calculatePanelCount
  omega

theorem calculatePanelCount_le_nine (n : ℕ) (mood fmt : String) :
    calculatePanelCount n mood fmt ≤ 9 :=
  le_trans (calculatePanelCount_le n mood fmt) (formatLimit_le fmt)

/-! ### Helper lemmas: the boundary invariant on rectangles -/

theorem baseTemplate_rectOK : ∀ n < 10, ∀ r ∈ baseTemplate n, RectOK r := by
  decide

theorem adjusted_rectOK :
    ∀ n < 10, ∀ i < n,
      ∀ r ∈ normalizeLayout (scaleClimax (baseTemplate n) i), RectOK r := by
  decide

theorem adjustForClimax_rectOK (n : ℕ) (hn : n < 10) (i : ℕ) :
    ∀ r ∈ adjustForClimax (baseTemplate n) i, RectOK r := by
  unfold adjustForClimax
  split
  · exact baseTemplate_rectOK n hn
  · next h =>
      have hi : i < n := by
        rw [baseTemplate_length] at h
        omega
      exact adjusted_rectOK n hn i hi

/-! ### Helper lemmas: panel construction -/

theorem createPanelsAux_length (b : Bool) (c : ℕ) :
    ∀ (T : List Rect) (S : List (List Char)) (i : ℕ),
      (createPanelsAux b c T S i).length = min T.length S.length := by
  intro T
  induction T with
  | nil => intro S i; simp [createPanelsAux]
  | cons r rt ih =>
    intro S i
    cases S with
    | nil => simp [createPanelsAux]
    | cons s st =>
      simp only [createPanelsAux, List.length_cons, ih]
      omega

theorem createPanelsAux_mem_rect {b : Bool} {c : ℕ} :
    ∀ {T : List Rect} {S : List (List Char)} {i : ℕ} {p : Panel},
      p ∈ createPanelsAux b c T S i →
      ∃ r ∈ T, p.x = r.x ∧ p.y = r.y ∧ p.width = r.w ∧ p.height = r.h := by
  intro T
  induction T with
  | nil => intro S i p hp; simp [createPanelsAux] at hp
  | cons r rt ih =>
    intro S i p hp
    cases S with
    | nil => simp [createPanelsAux] at hp
    | cons s st =>
      rcases List.mem_cons.mp hp with h | h
      · exact ⟨r, List.mem_cons_self r rt, by simp [h, mkPanel]⟩
      · obtain ⟨r', hr', hf⟩ := ih h
        exact ⟨r', List.mem_cons_of_mem r hr', hf⟩

theorem createPanelsAux_bleed {b : Bool} {c : ℕ} :
    ∀ {T : List Rect} {S : List (List Char)} {i : ℕ} {p : Panel},
      p ∈ createPanelsAux b c T S i → p.is_bleed = (p.is_climax && b) := by
  intro T
  induction T with
  | nil => intro S i p hp; simp [createPanelsAux] at hp
  | cons r rt ih =>
    intro S i p hp
    cases S with
    | nil => simp [createPanelsAux] at hp
    | cons s st =>
      rcases List.mem_cons.mp hp with h | h
      · simp [h, mkPanel]
      · exact ih h

theorem createPanelsAux_countP (b : Bool) (c : ℕ) :
    ∀ (T : List Rect) (S : List (List Char)) (i : ℕ),
      (createPanelsAux b c T S i).countP (·.is_climax)
        = if i ≤ c ∧ c < i + min T.length S.length then 1 else 0 := by
  intro T
  induction T with
  | nil =>
    intro S i
    simp only [createPanelsAux, List.countP_nil, List.length_nil,
      Nat.zero_min, Nat.add_zero]
    split_ifs <;> omega
  | cons r rt ih =>
    intro S i
    cases S with
    | nil =>
      simp only [createPanelsAux, List.countP_nil, List.length_nil,
        Nat.min_zero, Nat.add_zero]
      split_ifs <;> omega
    | cons s st =>
      simp only [createPanelsAux, List.countP_cons, ih, mkPanel,
        List.length_cons, Nat.succ_min_succ, decide_eq_true_eq]
      split_ifs <;> omega

/-- Inversion principle for `generateLayout`: an `ok` result determines
every field of the layout. -/
theorem generateLayout_eq_ok {scenes keyElements : List (List Char)}
    {mood fmt : String} {dir : ReadingDirection} {b : Bool} {L : PageLayout} :
    generateLayout scenes keyElements mood fmt dir b = .ok L ↔
    scenes ≠ [] ∧
      L = { panels := createPanels
              (adjustForClimax
                (baseTemplate (calculatePanelCount scenes.length mood fmt))
                (findClimax scenes keyElements))
              scenes (findClimax scenes keyElements) b
            reading_direction := dir
            mood := mood
            target_format := fmt
            total_panels := calculatePanelCount scenes.length mood fmt } := by
  unfold generateLayout
  by_cases h : scenes.isEmpty
  · simp [h, List.isEmpty_iff.mp h]
  · simp [h, selectLayoutTemplate_eq, eq_comm,
      List.isEmpty_iff.not.mp h]

/-! ### Helper lemmas: the argmax in `_find_climax` -/

theorem le_foldrMax : ∀ {l : List ℕ} {a : ℕ}, a ∈ l → a ≤ l.foldr max 0 := by
  intro l
  induction l with
  | nil => intro a ha; simp at ha
  | cons x t ih =>
    intro a ha
    rcases List.mem_cons.mp ha with h | h
    · subst h; exact le_max_left _ _
    · exact le_trans (ih h) (le_max_right _ _)

theorem foldrMax_mem : ∀ {l : List ℕ}, l ≠ [] → l.foldr max 0 ∈ l := by
  intro l
  induction l with
  | nil => intro h; exact absurd rfl h
  | cons x t ih =>
    intro _
    cases t with
    | nil => simp
    | cons y u =>
      rcases max_choice x ((y :: u).foldr max 0) with h | h <;>
        rw [List.foldr_cons, h]
      · exact List.mem_cons_self _ _
      · exact List.mem_cons_of_mem _ (ih (by simp))

theorem get_ne_of_lt_indexOf {a : ℕ} :
    ∀ {l : List ℕ} {j : ℕ} (hj : j < l.length),
      j < l.indexOf a → l.get ⟨j, hj⟩ ≠ a := by
  intro l
  induction l with
  | nil => intro j hj; simp at hj
  | cons x t ih =>
    intro j hj hlt
    by_cases hx : x = a
    · subst hx
      rw [List.indexOf_cons_self] at hlt
      omega
    · cases j with
      | zero => simpa using hx
      | succ j' =>
        rw [List.indexOf_cons_ne _ hx] at hlt
        exact ih _ (Nat.lt_of_succ_lt_succ hlt)

/-- Every panel of a successfully generated layout carries a rectangle
satisfying the page-boundary invariant. -/
theorem generateLayout_panels_rectOK {scenes keyElements : List (List Char)}
    {mood fmt : String} {dir : ReadingDirection} {b : Bool} {L : PageLayout}
    (h : generateLayout scenes keyElements mood fmt dir b = .ok L) :
    ∀ p ∈ L.panels, RectOK ⟨p.x, p.y, p.width, p.height⟩ := by
  obtain ⟨-, rfl⟩ := generateLayout_eq_ok.mp h
  intro p hp
  obtain ⟨r, hr, hx, hy, hw, hh⟩ := createPanelsAux_mem_rect hp
  have hok := adjustForClimax_rectOK (calculatePanelCount scenes.length mood fmt)
    (by have := calculatePanelCount_le_nine scenes.length mood fmt; omega)
    (findClimax scenes keyElements) r hr
  rw [hx, hy, hw, hh]
  exact hok

/-- The length of the generated panel list is exactly
`min panel_count (number of scenes)`. -/
theorem generateLayout_panels_length {scenes keyElements : List (List Char)}
    {mood fmt : String} {dir : ReadingDirection} {b : Bool} {L : PageLayout}
    (h : generateLayout scenes keyElements mood fmt dir b = .ok L) :
    L.panels.length = min L.total_panels scenes.length := by
  obtain ⟨-, rfl⟩ := generateLayout_eq_ok.mp h
  simp only [createPanels, createPanelsAux_length, adjustForClimax_length,
    baseTemplate_length]

/-- Lemma: `_calculate_panel_count` agrees with the spec's clamp formula once
`round` is amended to the floor actually computed by `int(...)`. -/
theorem calculatePanelCount_eq_spec (n : ℕ) (mood fmt : String) :
    calculatePanelCount n mood fmt = specPanelCountFloor n mood fmt := by
  have hmul : specMoodMultiplier mood = (moodFactorTenths mood : ℚ) / 10 := by
    unfold specMoodMultiplier moodFactorTenths
    split_ifs <;> norm_num
  have hlim : specFormatLimit fmt = formatLimit fmt := rfl
  have hfloor : ⌊(n : ℚ) * specMoodMultiplier mood⌋₊
      = n * moodFactorTenths mood / 10 := by
    rw [hmul]
    have : (n : ℚ) * ((moodFactorTenths mood : ℚ) / 10)
        = ((n * moodFactorTenths mood : ℕ) : ℚ) / ((10 : ℕ) : ℚ) := by
      push_cast; ring
    rw [this, Nat.floor_div_nat, Nat.floor_natCast]
  unfold calculatePanelCount specPanelCountFloor
  rw [hfloor, hlim]

/-! ### Helper lemmas: reading-order sort -/

theorem westernLE_key_eq {a b : Panel}
    (h1 : westernLE a b) (h2 : westernLE b a) : a.y = b.y ∧ a.x = b.x := by
  unfold westernLE at h1 h2
  rcases h1 with h | ⟨he, hx⟩ <;> rcases h2 with h' | ⟨he', hx'⟩ <;>
    constructor <;> linarith

theorem mangaLE_flip {a b : Panel} (h : mangaLE a b) : westernLE b a := by
  unfold mangaLE at h
  unfold westernLE
  rcases h with h | ⟨he, hx⟩
  · exact Or.inl h
  · exact Or.inr ⟨he.symm, hx⟩

/-- A sorted-by-`mangaLE` list reversed is sorted by `westernLE`. -/
theorem mangaSorted_reverse {l : List Panel} (h : l.Sorted mangaLE) :
    l.reverse.Sorted westernLE := by
  rw [List.Sorted, List.pairwise_reverse]
  exact h.imp mangaLE_flip

/-- Two `westernLE`-sorted permutations of a list with pairwise
distinct `(y, x)` keys are equal. -/
theorem sortedW_unique :
    ∀ {l₁ l₂ : List Panel}, l₁.Perm l₂ → l₁.Sorted westernLE →
      l₂.Sorted westernLE → l₁.Pairwise distinctPos → l₁ = l₂ := by
  intro l₁
  induction l₁ with
  | nil => intro l₂ hp _ _ _; exact (hp.symm.eq_nil).symm
  | cons a t₁ ih =>
    intro l₂ hp hs₁ hs₂ hpw
    cases l₂ with
    | nil => exact absurd hp.eq_nil (by simp)
    | cons b t₂ =>
      by_cases hab : a = b
      · subst hab
        rw [ih hp.cons_inv hs₁.of_cons hs₂.of_cons hpw.of_cons]
      · have hbmem : b ∈ t₁ := by
          rcases List.mem_cons.mp (hp.mem_iff.mpr (List.mem_cons_self b t₂))
            with h | h
          · exact absurd h.symm hab
          · exact h
        have hamem : a ∈ t₂ := by
          rcases List.mem_cons.mp (hp.mem_iff.mp (List.mem_cons_self a t₁))
            with h | h
          · exact absurd h hab
          · exact h
        have h1 : westernLE a b := List.rel_of_sorted_cons hs₁ b hbmem
        have h2 : westernLE b a := List.rel_of_sorted_cons hs₂ a hamem
        exact absurd (westernLE_key_eq h1 h2)
          (List.rel_of_pairwise_cons hpw hbmem)

theorem distinctPos_symm : ∀ {p q : Panel}, distinctPos p q → distinctPos q p := by
  intro p q h
  unfold distinctPos at *
  exact fun ⟨hy, hx⟩ => h ⟨hy.symm, hx.symm⟩

/-! ### Claim theorems -/

/-- C1 (amended): for every successful `generate_layout` call the panel
count equals `clamp(int(len(scenes) × mood_multiplier), 3,
format_limit)`, where `int(...)` truncates the non-negative product
toward zero (a floor) — not `round` as the claim states. -/
theorem panel_count_is_floor_clamp (scenes keyElements : List (List Char))
    (mood fmt : String) (dir : ReadingDirection) (b : Bool) (L : PageLayout)
    (h : generateLayout scenes keyElements mood fmt dir b = .ok L) :
    L.total_panels = specPanelCountFloor scenes.length mood fmt := by
  obtain ⟨-, rfl⟩ := generateLayout_eq_ok.mp h
  exact calculatePanelCount_eq_spec _ _ _

/-- C1 witness: the amended formula is reached on a concrete call. -/
theorem panel_count_is_floor_clamp_witness :
    demoLayout.total_panels = specPanelCountFloor 1 "m" "f" :=
  panel_count_is_floor_clamp ["a".data] [] "m" "f" .western false demoLayout rfl

/-- C1 counterexample: at Scenario A (6 scenes, "эпичный боевик",
"веб-комикс") the code yields 4 panels; the claimed round-based formula
yields `clamp(round(4.8), 3, 9) = 5`. -/
theorem panel_count_round_counterexample :
    (generateLayout sixScenes [] "эпичный боевик" "веб-комикс"
        .western false).map PageLayout.total_panels = .ok 4
    ∧ specPanelCountRound 6 "эпичный боевик" "веб-комикс" = 5
    ∧ (4 : ℕ) ≠ 5 := by
  refine ⟨rfl, ?_, by decide⟩
  unfold specPanelCountRound specMoodMultiplier specFormatLimit
  norm_num [round_eq]

/-- C2: every panel of a generated layout satisfies the boundary
invariant: `0 ≤ x ≤ 1`, `0 ≤ y ≤ 1`, `x + width ≤ 1` (hence `≤ 1 + ε`
for any `ε ≥ 0`), `y + height ≤ 1`, `width ≥ 0.1`, `height ≥ 0.1`. -/
theorem panels_within_page (scenes keyElements : List (List Char))
    (mood fmt : String) (dir : ReadingDirection) (b : Bool) (L : PageLayout)
    (h : generateLayout scenes keyElements mood fmt dir b = .ok L) :
    ∀ p ∈ L.panels,
      0 ≤ p.x ∧ p.x ≤ 1 ∧ 0 ≤ p.y ∧ p.y ≤ 1 ∧
      p.x + p.width ≤ 1 ∧ p.y + p.height ≤ 1 ∧
      1/10 ≤ p.width ∧ 1/10 ≤ p.height :=
  fun p hp => generateLayout_panels_rectOK h p hp

/-- C2 witness: the invariant evaluated on the concrete one-scene
layout's panel. -/
theorem panels_within_page_witness :
    0 ≤ demoPanel.x ∧ demoPanel.x ≤ 1 ∧ 0 ≤ demoPanel.y ∧ demoPanel.y ≤ 1 ∧
    demoPanel.x + demoPanel.width ≤ 1 ∧ demoPanel.y + demoPanel.height ≤ 1 ∧
    1/10 ≤ demoPanel.width ∧ 1/10 ≤ demoPanel.height :=
  panels_within_page ["a".data] [] "m" "f" .western false demoLayout rfl
    demoPanel (by decide)

/-- C3 (amended): a generated layout contains exactly one climax panel
when the climax index falls among the constructed panels, and none at
all when truncation leaves the climax index outside them. -/
theorem climax_count_eq_ite (scenes keyElements : List (List Char))
    (mood fmt : String) (dir : ReadingDirection) (b : Bool) (L : PageLayout)
    (h : generateLayout scenes keyElements mood fmt dir b = .ok L) :
    L.panels.countP (·.is_climax)
      = if findClimax scenes keyElements < L.panels.length then 1 else 0 := by
  obtain ⟨-, rfl⟩ := generateLayout_eq_ok.mp h
  simp only [createPanels, createPanelsAux_countP, createPanelsAux_length,
    adjustForClimax_length, baseTemplate_length]
  have hiff : (0 ≤ findClimax scenes keyElements ∧
      findClimax scenes keyElements <
        0 + min (calculatePanelCount scenes.length mood fmt) scenes.length)
      ↔ findClimax scenes keyElements <
        min (calculatePanelCount scenes.length mood fmt) scenes.length := by
    omega
  rw [if_congr hiff rfl rfl]

/-- C3 witness: on the one-scene layout the climax index 0 is in range
and the count is 1. -/
theorem climax_count_eq_ite_witness :
    demoLayout.panels.countP (·.is_climax)
      = if findClimax ["a".data] [] < demoLayout.panels.length then 1
        else 0 :=
  climax_count_eq_ite ["a".data] [] "m" "f" .western false demoLayout rfl

/-- C3 counterexample: ten scenes whose climax is the tenth produce
eight panels and zero climax panels — not exactly one. -/
theorem climax_can_vanish_counterexample :
    (generateLayout tenScenes [] "m" "f" .western false).map
      (fun L => L.panels.countP (·.is_climax)) = .ok 0
    ∧ (0 : ℕ) ≠ 1 :=
  ⟨rfl, by decide⟩

/-- C4: the chosen climax index is in range, carries the maximum scene
score, and is the first index achieving that maximum (earlier-indexed
scenes win ties). -/
theorem climax_first_argmax (scenes keyElements : List (List Char))
    (h : scenes ≠ []) :
    ∃ hc : findClimax scenes keyElements < scenes.length,
      (∀ j (hj : j < scenes.length),
          sceneScore keyElements (scenes.get ⟨j, hj⟩)
            ≤ sceneScore keyElements
                (scenes.get ⟨findClimax scenes keyElements, hc⟩))
      ∧ (∀ j (hj : j < scenes.length),
          sceneScore keyElements (scenes.get ⟨j, hj⟩)
            = sceneScore keyElements
                (scenes.get ⟨findClimax scenes keyElements, hc⟩)
          → findClimax scenes keyElements ≤ j) := by
  have hSne : scenes.map (sceneScore keyElements) ≠ [] := by
    simpa using h
  have hdef : findClimax scenes keyElements
      = (scenes.map (sceneScore keyElements)).indexOf
          ((scenes.map (sceneScore keyElements)).foldr max 0) := by
    unfold findClimax
    rw [if_neg (by simpa using hSne)]
  have hmem := foldrMax_mem hSne
  have hcS : (scenes.map (sceneScore keyElements)).indexOf
      ((scenes.map (sceneScore keyElements)).foldr max 0)
      < (scenes.map (sceneScore keyElements)).length :=
    List.indexOf_lt_length.mpr hmem
  have hc : findClimax scenes keyElements < scenes.length := by
    rw [hdef]
    simpa using hcS
  have hgetc : sceneScore keyElements
      (scenes.get ⟨findClimax scenes keyElements, hc⟩)
      = (scenes.map (sceneScore keyElements)).foldr max 0 := by
    have := List.indexOf_get (a := (scenes.map (sceneScore keyElements)).foldr max 0)
      (l := scenes.map (sceneScore keyElements)) hcS
    rw [← this]
    simp only [List.get_eq_getElem, List.getElem_map, hdef]
  refine ⟨hc, ?_, ?_⟩
  · intro j hj
    rw [hgetc]
    apply le_foldrMax
    have : sceneScore keyElements (scenes.get ⟨j, hj⟩)
        = (scenes.map (sceneScore keyElements)).get ⟨j, by simpa using hj⟩ := by
      simp
    rw [this]
    exact List.get_mem _ _ _
  · intro j hj hEq
    by_contra hlt
    push_neg at hlt
    have hjS : j < (scenes.map (sceneScore keyElements)).length := by
      simpa using hj
    have hne := get_ne_of_lt_indexOf hjS (by rw [← hdef]; exact hlt)
    apply hne
    rw [hgetc] at hEq
    simpa using hEq

/-- C4 witness: two scenes, the second containing the top keyword; the
climax index 1 satisfies the argmax characterization. -/
theorem climax_first_argmax_witness :
    ∃ hc : findClimax ["a".data, "взрыв".data] []
        < (["a".data, "взрыв".data] : List (List Char)).length,
      (∀ j (hj : j < (["a".data, "взрыв".data] : List (List Char)).length),
          sceneScore [] ((["a".data, "взрыв".data] : List (List Char)).get ⟨j, hj⟩)
            ≤ sceneScore []
                ((["a".data, "взрыв".data] : List (List Char)).get
                  ⟨findClimax ["a".data, "взрыв".data] [], hc⟩))
      ∧ (∀ j (hj : j < (["a".data, "взрыв".data] : List (List Char)).length),
          sceneScore [] ((["a".data, "взрыв".data] : List (List Char)).get ⟨j, hj⟩)
            = sceneScore []
                ((["a".data, "взрыв".data] : List (List Char)).get
                  ⟨findClimax ["a".data, "взрыв".data] [], hc⟩)
          → findClimax ["a".data, "взрыв".data] [] ≤ j) :=
  climax_first_argmax ["a".data, "взрыв".data] [] (by decide)

/-- C5: the requested panel count obeys `3 ≤ count ≤ format_limit` and
the constructed panel list never exceeds `min(count, len(scenes))`;
Scenario B (2 scenes, unknown labels) requests 3 panels but constructs
only 2. -/
theorem count_invariant_holds :
    (∀ (scenes keyElements : List (List Char)) (mood fmt : String)
        (dir : ReadingDirection) (b : Bool) (L : PageLayout),
        generateLayout scenes keyElements mood fmt dir b = .ok L →
        3 ≤ L.total_panels ∧ L.total_panels ≤ formatLimit fmt ∧
        L.panels.length ≤ min L.total_panels scenes.length)
    ∧ (generateLayout ["a".data, "b".data] [] "нейтрально" "зин"
        .western false).map (fun L => (L.total_panels, L.panels.length))
      = .ok (3, 2) := by
  constructor
  · intro scenes keyElements mood fmt dir b L h
    have hlen := generateLayout_panels_length h
    have hL := (generateLayout_eq_ok.mp h).2
    refine ⟨?_, ?_, le_of_eq hlen⟩
    · rw [hL]; exact calculatePanelCount_ge _ _ _
    · rw [hL]; exact calculatePanelCount_le _ _ _
  · rfl

/-- C5 witness: the bounds evaluated on the Scenario B layout. -/
theorem count_invariant_holds_witness :
    3 ≤ demoLayoutB.total_panels ∧
    demoLayoutB.total_panels ≤ formatLimit "зин" ∧
    demoLayoutB.panels.length
      ≤ min demoLayoutB.total_panels
          (["a".data, "b".data] : List (List Char)).length :=
  count_invariant_holds.1 ["a".data, "b".data] [] "нейтрально" "зин"
    .western false demoLayoutB rfl

/-- C6: at most one panel of a generated layout is a climax panel, and
a bleed panel is always the climax panel. -/
theorem climax_unique_bleed_only_climax (scenes keyElements : List (List Char))
    (mood fmt : String) (dir : ReadingDirection) (b : Bool) (L : PageLayout)
    (h : generateLayout scenes keyElements mood fmt dir b = .ok L) :
    L.panels.countP (·.is_climax) ≤ 1 ∧
    ∀ p ∈ L.panels, p.is_bleed = true → p.is_climax = true := by
  obtain ⟨-, rfl⟩ := generateLayout_eq_ok.mp h
  constructor
  · rw [createPanels, createPanelsAux_countP]
    split_ifs <;> omega
  · intro p hp hb
    have h2 := createPanelsAux_bleed hp
    rw [hb] at h2
    have h3 : p.is_climax = true ∧ b = true := by simpa using h2.symm
    exact h3.1

/-- C6 witness: evaluated on the concrete one-scene layout. -/
theorem climax_unique_bleed_only_climax_witness :
    demoLayout.panels.countP (·.is_climax) ≤ 1 ∧
    (demoPanel.is_bleed = true → demoPanel.is_climax = true) := by
  have h := climax_unique_bleed_only_climax ["a".data] [] "m" "f"
    .western false demoLayout rfl
  exact ⟨h.1, h.2 demoPanel (by decide)⟩

/-- C7: `generate_layout` fails with the `InvalidInput` error exactly on
an empty scene list (no layout value exists in that case), and returns
a complete layout for every non-empty scene list whatever the other
arguments are. -/
theorem invalid_input_iff_empty (scenes keyElements : List (List Char))
    (mood fmt : String) (dir : ReadingDirection) (b : Bool) :
    (generateLayout scenes keyElements mood fmt dir b
        = .error "At least one scene required" ↔ scenes = [])
    ∧ (scenes ≠ [] →
        ∃ L, generateLayout scenes keyElements mood fmt dir b = .ok L) := by
  unfold generateLayout
  by_cases h : scenes.isEmpty
  · simp [h, List.isEmpty_iff.mp h]
  · have hne := List.isEmpty_iff.not.mp h
    simp [h, hne]

/-- C7 witness: the error on the empty input and a layout on a
one-scene input. -/
theorem invalid_input_iff_empty_witness :
    generateLayout [] [] "m" "f" .western false
      = .error "At least one scene required"
    ∧ ∃ L, generateLayout ["a".data] [] "m" "f" .western false = .ok L :=
  ⟨(invalid_input_iff_empty [] [] "m" "f" .western false).1.mpr rfl,
   (invalid_input_iff_empty ["a".data] [] "m" "f" .western false).2
     (by decide)⟩

/-- C8 (amended): when the panels' `(y, x)` keys are pairwise distinct
(true of every template and grid used by the engine), the MANGA reading
order is the exact reverse of the WESTERN reading order; with duplicate
keys the stable sorts break the law (see the counterexample). -/
theorem manga_reverse_of_western (l : List Panel)
    (h : l.Pairwise distinctPos) :
    sortPanelsByReadingOrder l .manga
      = (sortPanelsByReadingOrder l .western).reverse := by
  show l.insertionSort mangaLE = (l.insertionSort westernLE).reverse
  have e : l.insertionSort westernLE = (l.insertionSort mangaLE).reverse := by
    apply sortedW_unique
    · exact (List.perm_insertionSort westernLE l).trans
        (((List.reverse_perm (l.insertionSort mangaLE)).trans
          (List.perm_insertionSort mangaLE l)).symm)
    · exact List.sorted_insertionSort westernLE l
    · exact mangaSorted_reverse (List.sorted_insertionSort mangaLE l)
    · exact ((List.perm_insertionSort westernLE l).pairwise_iff
        distinctPos_symm).mpr h
  rw [e, List.reverse_reverse]

/-- C8 witness: two panels with distinct keys, sorted both ways. -/
theorem manga_reverse_of_western_witness :
    ([demoPanel, demoPanelB] : List Panel).Pairwise distinctPos ∧
    sortPanelsByReadingOrder [demoPanel, demoPanelB] .manga
      = (sortPanelsByReadingOrder [demoPanel, demoPanelB] .western).reverse :=
  ⟨by decide, manga_reverse_of_western [demoPanel, demoPanelB] (by decide)⟩

/-- C8 counterexample: two panels with identical `(y, x)` keys: both
stable sorts keep their input order, so MANGA is not the reverse of
WESTERN. -/
theorem manga_not_reverse_counterexample :
    sortPanelsByReadingOrder [dupPanelA, dupPanelB] .manga
      ≠ (sortPanelsByReadingOrder [dupPanelA, dupPanelB] .western).reverse := by
  decide

/-- C9: the reading direction influences nothing but the stored
direction field — the generated panel list (geometry, aspect ratio,
content, climax and bleed flags) is identical across directions, for
identical scenes, key elements, labels and random draw. -/
theorem direction_ghost_on_geometry (scenes keyElements : List (List Char))
    (mood fmt : String) (d1 d2 : ReadingDirection) (b : Bool) :
    (generateLayout scenes keyElements mood fmt d1 b).map PageLayout.panels
      = (generateLayout scenes keyElements mood fmt d2 b).map
          PageLayout.panels := by
  unfold generateLayout
  by_cases h : scenes.isEmpty <;> simp [h, Except.map]

/-- C10: a generated layout always holds at least one panel, so the
composition analysis never reaches its empty-mean, empty-maximum or
zero-mean error branches. -/
theorem composition_always_defined (scenes keyElements : List (List Char))
    (mood fmt : String) (dir : ReadingDirection) (b : Bool) (L : PageLayout)
    (h : generateLayout scenes keyElements mood fmt dir b = .ok L) :
    L.panels ≠ [] ∧ (analyzeComposition L.panels).isSome = true := by
  have hs : scenes ≠ [] := (generateLayout_eq_ok.mp h).1
  have hlen := generateLayout_panels_length h
  have h3 : 3 ≤ L.total_panels := by
    rw [(generateLayout_eq_ok.mp h).2]
    exact calculatePanelCount_ge _ _ _
  have hpos : 0 < L.panels.length := by
    rw [hlen]
    have := List.length_pos.mpr hs
    omega
  have hne : L.panels ≠ [] := List.length_pos.mp hpos
  refine ⟨hne, ?_⟩
  have hrect := generateLayout_panels_rectOK h
  have hareas : ∀ x ∈ L.panels.map (fun p => p.width * p.height), 0 < x := by
    intro x hx
    obtain ⟨q, hq, rfl⟩ := List.mem_map.mp hx
    obtain ⟨-, -, -, -, -, -, hw, hh⟩ := hrect q hq
    have hw0 : (0 : ℚ) < q.width := lt_of_lt_of_le (by norm_num) hw
    have hh0 : (0 : ℚ) < q.height := lt_of_lt_of_le (by norm_num) hh
    exact mul_pos hw0 hh0
  obtain ⟨p, ps, hps⟩ := List.exists_cons_of_ne_nil hne
  rw [hps] at hareas ⊢
  have hsum : 0 < ((p :: ps).map (fun p => p.width * p.height)).sum :=
    List.sum_pos _ hareas (by simp)
  have havg : (0 : ℚ) <
      ((p :: ps).map (fun p => p.width * p.height)).sum
        / (((p :: ps).map (fun p => p.width * p.height)).length : ℚ) := by
    apply div_pos hsum
    simp
    positivity
  simp only [analyzeComposition, List.map_cons]
  rw [if_neg]
  · rfl
  · simp only [List.map_cons] at havg
    exact ne_of_gt havg

/-- C10 witness: the composition classification evaluated on the
concrete one-scene layout. -/
theorem composition_always_defined_witness :
    demoLayout.panels ≠ [] ∧
    (analyzeComposition demoLayout.panels).isSome = true :=
  composition_always_defined ["a".data] [] "m" "f" .western false
    demoLayout rfl

end ComicLayout
